import Mathlib

/-!
Verification development for the collector subsystem of the lnd network
diagnosis tool (github.com/sysatom/lnd).

The Go source is shallowly embedded: stateful collectors become explicit
state-passing functions, float64 values are modelled as exact rationals,
and network or kernel I/O outcomes (ping results, STUN events, dial
successes) are passed in as explicit parameters.  Go maps are modelled as
association lists with update-in-place semantics.
-/

namespace Lnd

/-- Association-list lookup, modelling a Go map read `m[k]`.  Returns the
first binding for the key. -/
def alookup {κ α : Type} [DecidableEq κ] : List (κ × α) → κ → Option α
  | [], _ => none
  | (k2, v) :: rest, k => if k2 = k then some v else alookup rest k

/-- Association-list update, modelling a Go map write `m[k] = v`: replaces
the existing binding or appends a new one. -/
def aupdate {κ α : Type} [DecidableEq κ] : List (κ × α) → κ → α → List (κ × α)
  | [], k, v => [(k, v)]
  | (k2, v2) :: rest, k, v =>
      if k2 = k then (k2, v) :: rest else (k2, v2) :: aupdate rest k v

theorem alookup_aupdate_self {κ α : Type} [DecidableEq κ]
    (m : List (κ × α)) (k : κ) (v : α) : alookup (aupdate m k v) k = some v := by
  induction m with
  | nil => simp [alookup, aupdate]
  | cons p rest ih =>
      obtain ⟨k2, v2⟩ := p
      by_cases h : k2 = k
      · simp [alookup, aupdate, h]
      · simp [alookup, aupdate, h, ih]

theorem alookup_aupdate_ne {κ α : Type} [DecidableEq κ]
    (m : List (κ × α)) (k k2 : κ) (v : α) (h : k ≠ k2) :
    alookup (aupdate m k v) k2 = alookup m k2 := by
  induction m with
  | nil => simp [alookup, aupdate, h]
  | cons p rest ih =>
      obtain ⟨k3, v3⟩ := p
      by_cases h3 : k3 = k
      · subst h3
        simp [alookup, aupdate, h]
      · simp [alookup, aupdate, h3, ih]

/-! ## TrafficCollector (internal/collector/traffic.go)

`TrafficCollector.Collect` reads per-interface cumulative counters from
gopsutil, computes per-second byte rates from the delta against the stored
prior sample, and stores the new sample.  `time.Time` values are modelled
as rationals (seconds); the zero `time.Time` of a fresh collector is
`none`.  float64 arithmetic is modelled as exact rational arithmetic. -/

/-- One `net.IOCountersStat` sample of gopsutil, restricted to the fields
the collector reads. -/
structure GoCounters where
  name : String
  bytesRecv : Nat
  bytesSent : Nat
  dropin : Nat
  dropout : Nat
  errin : Nat
  errout : Nat
deriving DecidableEq

/-- The `InterfaceTraffic` snapshot struct (internal/collector/interface.go). -/
structure InterfaceTraffic where
  rxBytes : Nat
  txBytes : Nat
  rxRate : ℚ
  txRate : ℚ
  drop : Nat
  errors : Nat
  collisions : Nat
deriving DecidableEq

/-- The mutable state of a `TrafficCollector`: `lastTime` (none models the
zero `time.Time` of a fresh collector) and the `lastStats` map. -/
structure TrafficState where
  lastTime : Option ℚ
  lastStats : List (String × GoCounters)
deriving DecidableEq

/-- Body of the per-counter loop of `TrafficCollector.Collect`: builds the
`InterfaceTraffic` entry for one counter and writes both result and
`lastStats` maps.  `lastStats` is read and written inside the loop, exactly
as in the source, so the evolving map is threaded through the fold. -/
def trafficStep (lastTime : Option ℚ) (now : ℚ)
    (acc : List (String × InterfaceTraffic) × List (String × GoCounters))
    (counter : GoCounters) :
    List (String × InterfaceTraffic) × List (String × GoCounters) :=
  let baseT : InterfaceTraffic :=
    { rxBytes := counter.bytesRecv, txBytes := counter.bytesSent,
      rxRate := 0, txRate := 0,
      drop := counter.dropin + counter.dropout,
      errors := counter.errin + counter.errout, collisions := 0 }
  let t : InterfaceTraffic :=
    match lastTime with
    | none => baseT
    | some t0 =>
        let duration := now - t0
        if 0 < duration then
          match alookup acc.2 counter.name with
          | some last =>
              let t1 := if last.bytesRecv ≤ counter.bytesRecv then
                  { baseT with
                    rxRate := ((counter.bytesRecv - last.bytesRecv : Nat) : ℚ) / duration }
                else baseT
              if last.bytesSent ≤ counter.bytesSent then
                { t1 with
                  txRate := ((counter.bytesSent - last.bytesSent : Nat) : ℚ) / duration }
              else t1
          | none => baseT
        else baseT
  (aupdate acc.1 counter.name t, aupdate acc.2 counter.name counter)

/-- `TrafficCollector.Collect`: returns the `Interfaces` map of the
`TrafficStats` snapshot and the updated collector state. -/
def trafficCollect (st : TrafficState) (now : ℚ) (counters : List GoCounters) :
    List (String × InterfaceTraffic) × TrafficState :=
  let res := counters.foldl (trafficStep st.lastTime now) ([], st.lastStats)
  (res.1, { lastTime := some now, lastStats := res.2 })

/-! ## KernelCollector (internal/collector/kernel_stats.go) -/

/-- The delta state of a `KernelCollector` (`lastRetrans`, `lastOutSegs`). -/
structure KernelState where
  lastRetrans : ℚ
  lastOutSegs : ℚ
deriving DecidableEq

/-- The retransmission-rate computation of `KernelCollector.Collect`
(lines 59 to 74): given stored prior values and the freshly parsed
`RetransSegs` and `OutSegs`, yields the reported `TCPRetransRate` and the
updated state. -/
def kernelRetransRate (st : KernelState) (tcpRetrans tcpOutSegs : ℚ) :
    ℚ × KernelState :=
  let rate : ℚ :=
    if 0 < st.lastOutSegs then
      let deltaRetrans := tcpRetrans - st.lastRetrans
      let deltaOut := tcpOutSegs - st.lastOutSegs
      if 0 < deltaOut then (deltaRetrans / deltaOut) * 100 else 0
    else
      if 0 < tcpOutSegs then (tcpRetrans / tcpOutSegs) * 100 else 0
  (rate, { lastRetrans := tcpRetrans, lastOutSegs := tcpOutSegs })

/-- The state of a freshly constructed `KernelCollector` (Go zero values). -/
def kernelInit : KernelState := { lastRetrans := 0, lastOutSegs := 0 }

/-! ## NatCollector (internal/collector/nat.go)

`NatCollector.probe` dials a UDP4 socket to the STUN target, records the
kernel-selected local address, sends a Binding Request through the pion
STUN client, and classifies the NAT from the response.  The outcome of the
network exchange is passed in as an explicit `StunOutcome` value; the
decoded STUN attributes carry structured IPv4 addresses, rendered by
`ipv4Str` exactly as `net.IP.String` renders a 4-byte address. -/

/-- A decoded IPv4 address (four octets). -/
structure IPv4A where
  a : Nat
  b : Nat
  c : Nat
  d : Nat
deriving DecidableEq

/-- Dotted-quad rendering of an `IPv4A`, as `net.IP.String` produces for a
4-byte address. -/
def ipv4Str (x : IPv4A) : String :=
  toString x.a ++ "." ++ toString x.b ++ "." ++ toString x.c ++ "." ++ toString x.d

/-- The `NatType` string constants of nat.go. -/
inductive NatTypeM where
  | openInternet
  | fullCone
  | restrictedCone
  | portRestrictedCone
  | symmetric
  | udpBlocked
  | unknown
  | behindNat
deriving DecidableEq

/-- The `NatInfo` snapshot struct; the Go `error` field is modelled as an
optional message. -/
structure NatInfoM where
  target : String
  natType : NatTypeM
  publicIP : String
  localIP : String
  errorMsg : Option String
deriving DecidableEq

/-- The event delivered to the `client.Do` callback: either an event
carrying an error (`res.Error != nil`), or a STUN message from which the
XOR-Mapped-Address, Mapped-Address and Other-Address attributes may or may
not decode. -/
inductive StunEvent where
  | errEvent
  | msgEvent (xorAddr mappedAddr otherAddr : Option IPv4A)
deriving DecidableEq

/-- The possible outcomes of the network exchange inside
`NatCollector.probe`, one per early-return branch of the source:
UDP dial failure, local-address cast failure, STUN client construction
failure, `client.Do` returning an error (the send failing), the 2-second
wall-clock timeout firing before the callback completes, and the callback
completing with an event. -/
inductive StunOutcome where
  | dialError
  | localCastError
  | clientError
  | doError
  | timeout
  | completed (ev : StunEvent)
deriving DecidableEq

/-- `NatCollector.probe` for one STUN target, given the kernel-selected
local source address and the outcome of the exchange. -/
def natProbe (host : String) (port : Nat) (localIP : IPv4A)
    (outcome : StunOutcome) : NatInfoM :=
  let info0 : NatInfoM :=
    { target := host ++ ":" ++ toString port, natType := .unknown,
      publicIP := "", localIP := "", errorMsg := none }
  match outcome with
  | .dialError => { info0 with errorMsg := some "dialing stun host" }
  | .localCastError =>
      { info0 with errorMsg := some "failed to cast local address to UDPAddr" }
  | .clientError =>
      { info0 with localIP := ipv4Str localIP,
                   errorMsg := some "creating stun client" }
  | .doError =>
      { info0 with localIP := ipv4Str localIP, natType := .udpBlocked,
                   errorMsg := some "stun request failed" }
  | .timeout =>
      { info0 with localIP := ipv4Str localIP,
                   errorMsg := some "stun request timed out" }
  | .completed ev =>
      let publicIP : String :=
        match ev with
        | .errEvent => ""
        | .msgEvent xorA mapA _ =>
            match xorA with
            | some x => ipv4Str x
            | none =>
                match mapA with
                | some mp => ipv4Str mp
                | none => ""
      let info2 := { info0 with localIP := ipv4Str localIP, publicIP := publicIP }
      if info2.publicIP = "" then
        { info2 with natType := .unknown, errorMsg := some "failed to get public ip" }
      else if info2.publicIP = info2.localIP then
        { info2 with natType := .openInternet }
      else
        { info2 with natType := .behindNat }

/-! ## ConnectivityCollector (internal/collector/connectivity.go) -/

/-- The `PingResult` snapshot struct; durations are rationals (seconds). -/
structure PingResultM where
  target : String
  packetLoss : ℚ
  minRtt : ℚ
  avgRtt : ℚ
  maxRtt : ℚ
  errorMsg : Option String
deriving DecidableEq

/-- The pinger configuration that `pingTarget` applies to the go-ping
pinger: `Count`, `Timeout` (seconds) and `SetPrivileged`. -/
structure PingerConfig where
  count : Nat
  timeoutSeconds : Nat
  privileged : Bool
deriving DecidableEq

/-- One observable network action of `pingTarget` and `tcpPing`. -/
inductive ProbeStep where
  | icmpRun (cfg : PingerConfig)
  | tcpDial (port : Nat)
deriving DecidableEq

/-- The statistics of a successful `pinger.Run`. -/
structure IcmpStats where
  packetLoss : ℚ
  minRtt : ℚ
  avgRtt : ℚ
  maxRtt : ℚ
deriving DecidableEq

/-- Outcome environment for one `pingTarget` invocation:
whether `ping.NewPinger` succeeded, the result of `pinger.Run`
(`none` means `Run` returned an error), whether the TCP connects to
ports 80 and 443 succeed, and the wall-clock time elapsed inside
`tcpPing` at the moment a connect succeeds. -/
structure PingEnv where
  newPingerOk : Bool
  icmpResult : Option IcmpStats
  dial80Ok : Bool
  dial443Ok : Bool
  tcpElapsed : ℚ
deriving DecidableEq

/-- `tcpPing`: dials port 80 with a 2-second timeout, then port 443 on
failure; reports the elapsed wall time as min=avg=max with loss 0 on
success, and loss 100 with an error when both fail.  Also returns the
list of dial attempts performed. -/
def tcpPingM (target : String) (env : PingEnv) : PingResultM × List ProbeStep :=
  if env.dial80Ok then
    (⟨target, 0, env.tcpElapsed, env.tcpElapsed, env.tcpElapsed, none⟩, [.tcpDial 80])
  else if env.dial443Ok then
    (⟨target, 0, env.tcpElapsed, env.tcpElapsed, env.tcpElapsed, none⟩,
     [.tcpDial 80, .tcpDial 443])
  else
    (⟨target, 100, 0, 0, 0, some "dial failed"⟩, [.tcpDial 80, .tcpDial 443])

/-- `pingTarget`: builds a pinger (3 packets, 2-second timeout,
privileged), runs it, and falls back to `tcpPing` when `Run` errors.
Returns the `PingResult` and the ordered list of network actions. -/
def pingTargetM (target : String) (env : PingEnv) : PingResultM × List ProbeStep :=
  if env.newPingerOk = false then
    (⟨target, 0, 0, 0, 0, some "pinger creation failed"⟩, [])
  else
    let cfg : PingerConfig := { count := 3, timeoutSeconds := 2, privileged := true }
    match env.icmpResult with
    | some st =>
        (⟨target, st.packetLoss, st.minRtt, st.avgRtt, st.maxRtt, none⟩, [.icmpRun cfg])
    | none =>
        let r := tcpPingM target env
        (r.1, .icmpRun cfg :: r.2)

/-- The linear scan of `ConnectivityCollector.Collect` that checks whether
the discovered gateway is already among the configured targets. -/
def containsStr : List String → String → Bool
  | [], _ => false
  | x :: rest, g => if x = g then true else containsStr rest g

/-- Target-list expansion of `ConnectivityCollector.Collect`: the gateway
(`none` models a `getDefaultGateway` error) is prepended when discovery
succeeded, the string is non-empty and it is not already present. -/
def targetsToPing (cfgTargets : List String) (gwRes : Option String) : List String :=
  match gwRes with
  | none => cfgTargets
  | some gw =>
      if gw = "" then cfgTargets
      else if containsStr cfgTargets gw then cfgTargets
      else gw :: cfgTargets

/-- The `Targets` map built by `ConnectivityCollector.Collect`: one
`pingTarget` result per expanded target, written into the mutex-guarded
map.  The per-target ping outcome is supplied as a function. -/
def connectivityTargets (cfgTargets : List String) (gwRes : Option String)
    (pingRes : String → PingResultM) : List (String × PingResultM) :=
  (targetsToPing cfgTargets gwRes).foldl (fun m t => aupdate m t (pingRes t)) []

/-! ## checkDNS (internal/collector/connectivity.go, lines 509 to 539) -/

/-- Outcomes of the two lookups inside `checkDNS`: the system-resolver
lookup of google.com and the forced 1.1.1.1 lookup, with their elapsed
times. -/
structure DnsCheckEnv where
  localErr : Option String
  localElapsed : ℚ
  publicErr : Option String
  publicElapsed : ℚ
deriving DecidableEq

/-- The `DNSResult` struct of the connectivity snapshot. -/
structure DNSTimings where
  localResolverTime : ℚ
  publicResolverTime : ℚ
  errorMsg : Option String
deriving DecidableEq

/-- `checkDNS`, statement by statement: record the local-resolver elapsed
time, set the error only when the local lookup failed, then record the
public-resolver elapsed time.  The error of the public lookup is assigned
to the local variable `err` but never stored in the result. -/
def checkDNSM (env : DnsCheckEnv) : DNSTimings :=
  let res : DNSTimings := { localResolverTime := 0, publicResolverTime := 0, errorMsg := none }
  let res := { res with localResolverTime := env.localElapsed }
  let res := if env.localErr.isSome then { res with errorMsg := env.localErr } else res
  { res with publicResolverTime := env.publicElapsed }

/-! ## TunnelCollector (internal/collector/tunnel.go) -/

/-- A `config.TunnelConfig` entry. -/
structure TunnelConfigM where
  name : String
  target : String
  app : String
  transport : String
  proxy : String
  user : String
  password : String
deriving DecidableEq

/-- One network dial performed by `dialTransport`. -/
inductive DialStep where
  | dialTCP (addr : String)
  | dialUDP (addr : String)
  | dialTLS (addr : String)
  | dialDTLS (addr : String)
  | socksDial (proxyAddr target : String)
  | httpConnect (proxyAddr target : String)
deriving DecidableEq

/-- Outcomes of the network operations of one tunnel test: the result of
the transport dial when one is attempted, and the result of the
application-level check (`none` means success). -/
structure TunnelEnv where
  dialErr : Option String
  appErr : Option String
deriving DecidableEq

/-- `TunnelCollector.dialTransport`: switches on the transport tag.  The
socks5 and http arms return an error before any dial when no proxy is
configured.  Returns the dial error (none on success) and the list of
dials performed. -/
def dialTransport (cfg : TunnelConfigM) (env : TunnelEnv) :
    Option String × List DialStep :=
  if cfg.transport = "tcp" then (env.dialErr, [.dialTCP cfg.target])
  else if cfg.transport = "udp" then (env.dialErr, [.dialUDP cfg.target])
  else if cfg.transport = "tls" then (env.dialErr, [.dialTLS cfg.target])
  else if cfg.transport = "dtls" then (env.dialErr, [.dialDTLS cfg.target])
  else if cfg.transport = "socks5" then
    if cfg.proxy = "" then (some "proxy address required for socks5", [])
    else (env.dialErr, [.socksDial cfg.proxy cfg.target])
  else if cfg.transport = "http" then
    if cfg.proxy = "" then (some "proxy address required for http proxy", [])
    else (env.dialErr, [.httpConnect cfg.proxy cfg.target])
  else (some ("unsupported transport protocol: " ++ cfg.transport), [])

/-- `TunnelCollector.testTunnel`: dial the transport, then run the
application check over the connection.  A transport failure is wrapped
with the prefix used by the source. -/
def testTunnel (cfg : TunnelConfigM) (env : TunnelEnv) :
    Option String × List DialStep :=
  match dialTransport cfg env with
  | (some e, steps) => (some ("transport error: " ++ e), steps)
  | (none, steps) => (env.appErr, steps)

/-- The `TunnelResult` struct. -/
structure TunnelResultM where
  name : String
  app : String
  transport : String
  target : String
  status : String
  latency : ℚ
  errorMsg : Option String
deriving DecidableEq

/-- `TunnelCollector.Collect`: one `TunnelResult` per configuration, with
status OK unless the test returned an error.  Per-configuration outcomes
and wall-clock latencies are supplied as functions. -/
def collectTunnels (cfgs : List TunnelConfigM) (env : TunnelConfigM → TunnelEnv)
    (lat : TunnelConfigM → ℚ) : List TunnelResultM :=
  cfgs.map fun cfg =>
    let err := (testTunnel cfg (env cfg)).1
    { name := cfg.name, app := cfg.app, transport := cfg.transport,
      target := cfg.target,
      status := if err.isSome then "Error" else "OK",
      latency := lat cfg, errorMsg := err }

/-! ## parseNetSnmp (internal/collector/kernel_stats.go, lines 101 to 146)

Lines of `/proc/net/snmp` are modelled as lists of characters;
`strings.Fields`, `strings.TrimSuffix` and `strconv.ParseFloat` (on the
decimal forms occurring in that file) are embedded below. -/

/-- Whitespace recognised by `strings.Fields` (the ASCII cases of
`unicode.IsSpace`). -/
def isSpaceChar (c : Char) : Bool :=
  c = ' ' || c = '\t' || c = '\n' || c = '\r' || c.toNat = 11 || c.toNat = 12

/-- Worker for `goFields`; `cur` holds the current field reversed. -/
def fieldsGo : List Char → List Char → List (List Char)
  | [], cur => if cur = [] then [] else [cur.reverse]
  | c :: rest, cur =>
      if isSpaceChar c then
        if cur = [] then fieldsGo rest [] else cur.reverse :: fieldsGo rest []
      else fieldsGo rest (c :: cur)

/-- `strings.Fields`: split around runs of whitespace. -/
def goFields (s : List Char) : List (List Char) := fieldsGo s []

/-- The last character of a list, modelling `strings.HasSuffix` checks for
one-character suffixes. -/
def lastChar : List Char → Option Char
  | [] => none
  | [c] => some c
  | _ :: c :: rest => lastChar (c :: rest)

/-- `strings.TrimSuffix(s, ":")`. -/
def trimColonSuffix (s : List Char) : List Char :=
  if lastChar s = some ':' then s.dropLast else s

/-- Value of a list of decimal digits. -/
def digitsVal (l : List Char) : Nat := l.foldl (fun a c => a * 10 + (c.toNat - 48)) 0

/-- `strconv.ParseFloat` restricted to the plain decimal forms
(optional sign, digits, optional fraction) that occur as counters in
`/proc/net/snmp`; exotic float syntax is not modelled. -/
def parseDecimal (s : List Char) : Option ℚ :=
  let signRest : ℚ × List Char :=
    match s with
    | '-' :: r => (-1, r)
    | '+' :: r => (1, r)
    | r => (1, r)
  let sign := signRest.1
  let rest := signRest.2
  let intPart := rest.takeWhile Char.isDigit
  let rest2 := rest.dropWhile Char.isDigit
  match rest2 with
  | [] => if intPart = [] then none else some (sign * digitsVal intPart)
  | '.' :: fr =>
      let frac := fr.takeWhile Char.isDigit
      let rest3 := fr.dropWhile Char.isDigit
      if rest3 ≠ [] then none
      else if intPart = [] ∧ frac = [] then none
      else some (sign * ((digitsVal intPart : ℚ) + (digitsVal frac : ℚ) / (10 : ℚ) ^ frac.length))
  | _ => none

/-- The nested map protocol → key → value built by `parseNetSnmp`. -/
abbrev SnmpMap := List (List Char × List (List Char × ℚ))

/-- The bounded key/value loop of `parseNetSnmp`
(`for i := 1; i < len(parts) && i < len(valParts); i++`), expressed as a
fold over the zipped field tails: a key is written only when the value
parses. -/
def snmpFold (pairs : List (List Char × List Char))
    (inner : List (List Char × ℚ)) : List (List Char × ℚ) :=
  pairs.foldl (fun acc kv =>
    match parseDecimal kv.2 with
    | some q => aupdate acc kv.1 q
    | none => acc) inner

/-- The scanner loop of `parseNetSnmp` as a one-line-per-step state
machine: `pending = none` means the next line is read as a header,
`pending = some (proto, parts)` means a header was read and the next line
is its values line.  Running out of lines while a header is pending models
the `break` on the failed inner `scanner.Scan()`. -/
def snmpLoopA : List (List Char) → Option (List Char × List (List Char)) → SnmpMap → SnmpMap
  | [], _, m => m
  | line :: rest, none, m =>
      let parts := goFields line
      if parts.length < 2 then snmpLoopA rest none m
      else snmpLoopA rest (some (trimColonSuffix (parts.headD []), parts)) m
  | valLine :: rest, some pend, m =>
      let proto := pend.1
      let parts := pend.2
      let valParts := goFields valLine
      let m1 := if (alookup m proto).isSome then m else aupdate m proto []
      let inner := (alookup m1 proto).getD []
      let inner2 := snmpFold ((parts.drop 1).zip (valParts.drop 1)) inner
      snmpLoopA rest none (aupdate m1 proto inner2)

/-- `parseNetSnmp` over the lines of `/proc/net/snmp`. -/
def parseNetSnmp (lines : List (List Char)) : SnmpMap :=
  snmpLoopA lines none []

/-- The SNMP extraction and rate computation of `KernelCollector.Collect`:
reads `Tcp.RetransSegs` and `Tcp.OutSegs` from the parsed file (Go zero
value 0 when absent) and applies the delta-rate logic. -/
def kernelCollect (st : KernelState) (snmpLines : List (List Char)) : ℚ × KernelState :=
  let snmp := parseNetSnmp snmpLines
  let tcpStats := (alookup snmp (String.toList "Tcp")).getD []
  let tcpRetrans := (alookup tcpStats (String.toList "RetransSegs")).getD 0
  let tcpOutSegs := (alookup tcpStats (String.toList "OutSegs")).getD 0
  kernelRetransRate st tcpRetrans tcpOutSegs

/-! ## net.ParseIP and miekg dns.ReverseAddr

`DNSCollector.Lookup` rewrites a domain that parses as an IP address to
its reverse-lookup name via `dns.ReverseAddr`, which itself calls
`net.ParseIP`.  The Go parser (netip.ParseAddr as used by net.ParseIP of
the repository toolchain) is embedded below over character lists; parsed
addresses are 16-byte lists (IPv4 addresses in 4-in-6 mapped form, as
`net.ParseIP` returns them).  Zoned addresses are rejected, as
`net.ParseIP` rejects any address carrying a zone. -/

/-- Hexadecimal digit value. -/
def hexVal (c : Char) : Option Nat :=
  if 48 ≤ c.toNat ∧ c.toNat ≤ 57 then some (c.toNat - 48)
  else if 97 ≤ c.toNat ∧ c.toNat ≤ 102 then some (c.toNat - 87)
  else if 65 ≤ c.toNat ∧ c.toNat ≤ 70 then some (c.toNat - 55)
  else none

/-- The field loop of netip.parseIPv4Fields: decimal octets below 256,
no leading zeros, exactly four dot-separated fields, rejecting empty
fields, a trailing dot and stray characters. -/
def v4Loop (fuel : Nat) (s : List Char) (val digLen pos : Nat)
    (flds : List Nat) : Option (List Nat) :=
  match fuel with
  | 0 => none
  | fuel + 1 =>
    match s with
    | [] => if pos < 3 then none else some (flds ++ [val])
    | c :: rest =>
        if 48 ≤ c.toNat ∧ c.toNat ≤ 57 then
          if digLen = 1 ∧ val = 0 then none
          else
            let val2 := val * 10 + (c.toNat - 48)
            if 255 < val2 then none
            else v4Loop fuel rest val2 (digLen + 1) pos flds
        else if c = '.' then
          if digLen = 0 then none
          else if rest = [] then none
          else if pos = 3 then none
          else v4Loop fuel rest 0 0 (pos + 1) (flds ++ [val])
        else none

/-- netip.parseIPv4 followed by the 16-byte widening `As16` that
`net.ParseIP` applies. -/
def parseV4 (s : List Char) : Option (List Nat) :=
  (v4Loop (s.length + 1) s 0 0 0 []).map
    (fun f => [0, 0, 0, 0, 0, 0, 0, 0, 0, 0, 255, 255] ++ f)

/-- A maximal run of hexadecimal digits: accumulated value, number of
digits consumed and the remainder; `none` when the value reaches 2^16
(netip rejects such groups outright). -/
def hexRun (fuel : Nat) (s : List Char) (acc cnt : Nat) :
    Option (Nat × Nat × List Char) :=
  match fuel with
  | 0 => none
  | fuel + 1 =>
    match s with
    | [] => some (acc, cnt, [])
    | c :: rest =>
        match hexVal c with
        | some v =>
            let acc2 := acc * 16 + v
            if 65535 < acc2 then none else hexRun fuel rest acc2 (cnt + 1)
        | none => some (acc, cnt, c :: rest)

/-- The epilogue of netip.parseIPv6: reject trailing characters, expand a
`::` ellipsis to the missing zero bytes, and reject a `::` that expands to
nothing. -/
def v6Finish (s : List Char) (i : Nat) (ip : List Nat) (ell : Option Nat) :
    Option (List Nat) :=
  if s ≠ [] then none
  else if i < 16 then
    match ell with
    | none => none
    | some e => some (ip.take e ++ List.replicate (16 - i) 0 ++ ip.drop e)
  else
    match ell with
    | none => some ip
    | some _ => none

/-- The main loop of netip.parseIPv6: repeatedly read a hex group, detect
an embedded trailing IPv4 address at a dot, store two bytes per group, and
track the position of a `::` ellipsis. -/
def v6Loop (fuel : Nat) (s : List Char) (i : Nat) (ip : List Nat)
    (ell : Option Nat) : Option (List Nat) :=
  match fuel with
  | 0 => none
  | fuel + 1 =>
    if 16 ≤ i then v6Finish s i ip ell
    else
      match hexRun (s.length + 1) s 0 0 with
      | none => none
      | some (acc, cnt, rest) =>
          if cnt = 0 then none
          else
            match rest with
            | '.' :: _ =>
                if ell = none ∧ i ≠ 12 then none
                else if 16 < i + 4 then none
                else
                  match v4Loop (s.length + 1) s 0 0 0 [] with
                  | none => none
                  | some flds => v6Finish [] (i + 4) (ip ++ flds) ell
            | _ =>
                let ip2 := ip ++ [acc / 256, acc % 256]
                let i2 := i + 2
                match rest with
                | [] => v6Finish [] i2 ip2 ell
                | ':' :: rest2 =>
                    match rest2 with
                    | [] => none
                    | ':' :: rest3 =>
                        match ell with
                        | some _ => none
                        | none =>
                            match rest3 with
                            | [] => v6Finish [] i2 ip2 (some i2)
                            | _ => v6Loop fuel rest3 i2 ip2 (some i2)
                    | _ => v6Loop fuel rest2 i2 ip2 ell
                | _ => none

/-- netip.parseIPv6 (zoned addresses excluded, since `net.ParseIP` rejects
them): handle a leading `::`, then run the group loop. -/
def parseV6 (s : List Char) : Option (List Nat) :=
  match s with
  | ':' :: ':' :: rest =>
      match rest with
      | [] => some (List.replicate 16 0)
      | _ => v6Loop (s.length + 1) rest 0 [] (some 0)
  | _ => v6Loop (s.length + 1) s 0 [] none

/-- The dispatch scan of netip.ParseAddr: the first of `.`, `:` or `%`
decides the format. -/
def findSpecial : List Char → Option Char
  | [] => none
  | c :: rest => if c = '.' ∨ c = ':' ∨ c = '%' then some c else findSpecial rest

/-- `net.ParseIP`: a 16-byte address on success (`isIP` of dns.go is its
`isSome`). -/
def goParseIP (s : List Char) : Option (List Nat) :=
  match findSpecial s with
  | some '.' => parseV4 s
  | some ':' => parseV6 s
  | _ => none

/-- `net.IP.To4`: the 4-byte form of an address that is IPv4 or
4-in-6 mapped. -/
def ipTo4 (ip : List Nat) : Option (List Nat) :=
  match ip with
  | [a, b, c, d] => some [a, b, c, d]
  | [0, 0, 0, 0, 0, 0, 0, 0, 0, 0, 255, 255, a, b, c, d] => some [a, b, c, d]
  | _ => none

/-- The `hexDigit` table of miekg/dns. -/
def hexDigitChar (v : Nat) : Char := (String.toList "0123456789abcdef").getD v '0'

/-- miekg `dns.ReverseAddr` applied to an already parsed address: octets
reversed in decimal for an address with a 4-byte form, nibbles reversed in
lowercase hex otherwise; both forms end with a dot. -/
def reverseOfIP (ip : List Nat) : List Char :=
  match ipTo4 ip with
  | some v4 =>
      (v4.reverse.map (fun b => (Nat.repr b).toList ++ ['.'])).flatten
        ++ String.toList "in-addr.arpa."
  | none =>
      (ip.reverse.map (fun v => [hexDigitChar (v % 16), '.', hexDigitChar (v / 16), '.'])).flatten
        ++ String.toList "ip6.arpa."

/-- miekg `dns.ReverseAddr`: parse, then render; fails exactly when
`net.ParseIP` fails. -/
def goReverseAddr (s : List Char) : Option (List Char) :=
  (goParseIP s).map reverseOfIP

/-! ## DNSCollector.Lookup (internal/collector/dns.go) -/

/-- A `DNSServer` entry; `Proto` is the Go string type `DNSProtocol`. -/
structure DNSServerM where
  name : String
  address : String
  proto : String
deriving DecidableEq

/-- The qtype switch of `Lookup` (miekg numeric types; the Go default
keeps `dns.TypeA`). -/
def qtypeOf (rt : String) : Nat :=
  if rt = "A" then 1
  else if rt = "AAAA" then 28
  else if rt = "CNAME" then 5
  else if rt = "MX" then 15
  else if rt = "TXT" then 16
  else if rt = "NS" then 2
  else if rt = "PTR" then 12
  else if rt = "SRV" then 33
  else if rt = "CAA" then 257
  else 1

/-- The question `Lookup` builds: fully qualified name and numeric qtype. -/
structure DNSQuestion where
  qname : List Char
  qtype : Nat
deriving DecidableEq

/-- The transport arm selected by the protocol switch of `Lookup`. -/
inductive TransportBranch where
  | doh
  | dot
  | doq
  | standard
deriving DecidableEq

/-- The observable outcome of `Lookup` before any network activity:
either the early invalid-IP error return, or a question dispatched to one
of the four transport arms. -/
inductive LookupAction where
  | invalidIPError
  | dispatch (q : DNSQuestion) (branch : TransportBranch)
deriving DecidableEq

/-- The protocol switch of `Lookup` (default arm covers UDP and TCP). -/
def branchOf (proto : String) : TransportBranch :=
  if proto = "DoH" then .doh
  else if proto = "DoT" then .dot
  else if proto = "DoQ" then .doq
  else .standard

/-- `DNSCollector.Lookup` up to the transport dispatch: rewrite to a PTR
query when the type is PTR or the domain parses as an IP, ensure the
trailing dot, map the record type to a qtype, and select the transport
arm. -/
def dnsLookup (domain : List Char) (recordType : String) (server : DNSServerM) :
    LookupAction :=
  let step : Option (List Char × String) :=
    if recordType = "PTR" ∨ (goParseIP domain).isSome then
      match goReverseAddr domain with
      | some rev => some (rev, "PTR")
      | none => none
    else some (domain, recordType)
  match step with
  | none => .invalidIPError
  | some dr =>
      let d2 := if lastChar dr.1 = some '.' then dr.1 else dr.1 ++ ['.']
      .dispatch { qname := d2, qtype := qtypeOf dr.2 } (branchOf server.proto)

/-- `net.JoinHostPort`. -/
def goJoinHostPort (host port : String) : String :=
  if host.contains ':' then "[" ++ host ++ "]:" ++ port else host ++ ":" ++ port

/-- The wire-level choices made by `lookupStandard`: the `dns.Client.Net`
value, the address contacted, and the protocol recorded in the
`DNSLookupResult` (both the error path and `parseResponse` record
`ProtoUDP`).  `resolvConf` models `dns.ClientConfigFromFile` of
/etc/resolv.conf for the System server (`none` = read failed or empty). -/
structure StandardPlan where
  clientNet : String
  address : String
  reportedProto : String
deriving DecidableEq

/-- `DNSCollector.lookupStandard` (dns.go lines 673 to 700): the client
network is the constant "udp" and the reported protocol the constant
`ProtoUDP`, whatever `server.Proto` says. -/
def lookupStandardPlan (server : DNSServerM)
    (resolvConf : Option (List String × String)) : StandardPlan :=
  let address :=
    if server.name = "System" then
      match resolvConf with
      | some (srv :: _, port) => goJoinHostPort srv port
      | _ => "8.8.8.8:53"
    else server.address
  { clientNet := "udp", address := address, reportedProto := "UDP" }

/-! ## Theorems -/

attribute [local semireducible] Rat.add Rat.mul Rat.sub Rat.inv Rat.ofScientific

theorem ipv4Str_ne_empty (x : IPv4A) : ipv4Str x ≠ "" := by
  intro h
  have h2 := congrArg String.length h
  have hdot : ".".length = 1 := rfl
  have hemp : "".length = 0 := rfl
  simp only [ipv4Str, String.length_append, hdot, hemp] at h2
  omega

theorem lastChar_append (xs ys : List Char) (hys : ys ≠ []) :
    lastChar (xs ++ ys) = lastChar ys := by
  induction xs with
  | nil => rfl
  | cons a xs ih =>
      cases xs with
      | nil =>
          cases ys with
          | nil => exact absurd rfl hys
          | cons c rest => rfl
      | cons b xs2 => exact ih

theorem lastChar_reverseOfIP (ip : List Nat) :
    lastChar (reverseOfIP ip) = some '.' := by
  unfold reverseOfIP
  cases ipTo4 ip with
  | none =>
      rw [lastChar_append]
      · rfl
      · decide
  | some v4 =>
      rw [lastChar_append]
      · rfl
      · decide

theorem containsStr_eq_true_iff (l : List String) (g : String) :
    containsStr l g = true ↔ g ∈ l := by
  induction l with
  | nil => simp [containsStr]
  | cons x rest ih =>
      by_cases hx : x = g
      · subst hx
        simp [containsStr]
      · simp [containsStr, hx, ih, Ne.symm hx]

theorem connectivity_fold_lookup (pingRes : String → PingResultM) :
    ∀ (ts : List String) (acc : List (String × PingResultM)) (t : String),
      alookup (ts.foldl (fun m x => aupdate m x (pingRes x)) acc) t
        = if t ∈ ts then some (pingRes t) else alookup acc t := by
  intro ts
  induction ts with
  | nil => intro acc t; simp
  | cons x rest ih =>
      intro acc t
      simp only [List.foldl]
      rw [ih]
      by_cases hmem : t ∈ rest
      · simp [hmem]
      · by_cases hx : t = x
        · subst hx
          simp [hmem, alookup_aupdate_self]
        · simp [hmem, hx, alookup_aupdate_ne _ _ _ _ (Ne.symm hx)]

/-- C1: for a DNS lookup whose selected server has protocol TCP, the spec
says the query is exchanged over a TCP connection and the result reports
the protocol actually used.  The code routes the TCP protocol to
`lookupStandard` (the default arm of the protocol switch), which sets the
dns client network to the constant "udp" and records `ProtoUDP` in the
result, so a TCP-selected lookup is exchanged over UDP.  This theorem
evaluates the embedded dispatch at a concrete TCP-selected lookup. -/
theorem c1_tcp_server_exchanges_over_udp :
    dnsLookup (String.toList "example.com") "A" ⟨"Google", "8.8.8.8:53", "TCP"⟩
      = .dispatch ⟨String.toList "example.com.", 1⟩ .standard
    ∧ (lookupStandardPlan ⟨"Google", "8.8.8.8:53", "TCP"⟩ none).clientNet = "udp"
    ∧ (lookupStandardPlan ⟨"Google", "8.8.8.8:53", "TCP"⟩ none).reportedProto = "UDP"
    ∧ (lookupStandardPlan ⟨"Google", "8.8.8.8:53", "TCP"⟩ none).clientNet ≠ "tcp" := by
  decide

/-- C4: the STUN probe classifies UDP-Blocked when the stun request
(`client.Do`) fails, Unknown when no public address was extracted from the
response, Open-Internet when the extracted public IP equals the
kernel-selected local IP, Behind-NAT otherwise; and whenever the exchange
completed with a decoded XOR-Mapped-Address the reported public IP is
non-empty. -/
theorem c4_nat_classification (host : String) (port : Nat) (localIP : IPv4A)
    (outcome : StunOutcome) :
    (outcome = .doError →
        (natProbe host port localIP outcome).natType = .udpBlocked)
    ∧ (∀ ev, outcome = .completed ev →
        ((natProbe host port localIP outcome).publicIP = "" →
            (natProbe host port localIP outcome).natType = .unknown)
        ∧ ((natProbe host port localIP outcome).publicIP ≠ "" →
            (natProbe host port localIP outcome).publicIP
              = (natProbe host port localIP outcome).localIP →
            (natProbe host port localIP outcome).natType = .openInternet)
        ∧ ((natProbe host port localIP outcome).publicIP ≠ "" →
            (natProbe host port localIP outcome).publicIP
              ≠ (natProbe host port localIP outcome).localIP →
            (natProbe host port localIP outcome).natType = .behindNat))
    ∧ (∀ xorA mapA otherA,
        outcome = .completed (.msgEvent (some xorA) mapA otherA) →
        (natProbe host port localIP outcome).publicIP ≠ "") := by
  refine ⟨?_, ?_, ?_⟩
  · intro h
    subst h
    rfl
  · intro ev h
    subst h
    cases ev with
    | errEvent => simp [natProbe]
    | msgEvent xorA mapA otherA =>
        cases xorA with
        | some x =>
            by_cases heq : ipv4Str x = ipv4Str localIP <;>
              simp [natProbe, heq, ipv4Str_ne_empty]
        | none =>
            cases mapA with
            | some mp =>
                by_cases heq : ipv4Str mp = ipv4Str localIP <;>
                  simp [natProbe, heq, ipv4Str_ne_empty]
            | none => simp [natProbe]
  · intro xorA mapA otherA h
    subst h
    by_cases heq : ipv4Str xorA = ipv4Str localIP <;>
      simp [natProbe, heq, ipv4Str_ne_empty]

/-- C4 witness: concrete probes for each classification rule. -/
theorem c4_nat_classification_witness :
    (natProbe "stun.l.google.com" 19302 ⟨192, 168, 1, 2⟩ .doError).natType
      = .udpBlocked
    ∧ (natProbe "stun.l.google.com" 19302 ⟨192, 168, 1, 2⟩
        (.completed (.msgEvent none none none))).natType = .unknown
    ∧ (natProbe "stun.l.google.com" 19302 ⟨192, 168, 1, 2⟩
        (.completed (.msgEvent (some ⟨192, 168, 1, 2⟩) none none))).natType
      = .openInternet
    ∧ (natProbe "stun.l.google.com" 19302 ⟨192, 168, 1, 2⟩
        (.completed (.msgEvent (some ⟨203, 0, 113, 7⟩) none none))).natType
      = .behindNat
    ∧ (natProbe "stun.l.google.com" 19302 ⟨192, 168, 1, 2⟩
        (.completed (.msgEvent (some ⟨203, 0, 113, 7⟩) none none))).publicIP
      ≠ "" := by
  refine ⟨?_, ?_, ?_, ?_, ?_⟩
  · exact (c4_nat_classification _ _ _ _).1 rfl
  · exact ((c4_nat_classification _ _ _ _).2.1 _ rfl).1 (by decide)
  · exact ((c4_nat_classification _ _ _ _).2.1 _ rfl).2.1 (by decide) (by decide)
  · exact ((c4_nat_classification _ _ _ _).2.1 _ rfl).2.2 (by decide) (by decide)
  · exact (c4_nat_classification _ _ _ _).2.2 _ _ _ rfl

/-- C6: for a target whose pinger was constructed, the probe first runs an
ICMP ping configured with 3 packets, a 2-second timeout and privileged
mode; when the ICMP run fails it falls back to a TCP connect against port
80 and then port 443, and the resulting PingResult has min, avg and max
equal to the elapsed connect latency with loss 0 on success, and loss 100
with a non-nil error when both connects fail. -/
theorem c6_ping_fallback (target : String) (env : PingEnv)
    (hok : env.newPingerOk = true) :
    (pingTargetM target env).2.head?
      = some (.icmpRun { count := 3, timeoutSeconds := 2, privileged := true })
    ∧ (env.icmpResult = none →
        ((pingTargetM target env).2
          = .icmpRun { count := 3, timeoutSeconds := 2, privileged := true }
              :: .tcpDial 80 :: (if env.dial80Ok then [] else [.tcpDial 443]))
        ∧ ((env.dial80Ok = true ∨ env.dial443Ok = true) →
            (pingTargetM target env).1
              = ⟨target, 0, env.tcpElapsed, env.tcpElapsed, env.tcpElapsed, none⟩)
        ∧ (env.dial80Ok = false → env.dial443Ok = false →
            (pingTargetM target env).1.packetLoss = 100
            ∧ (pingTargetM target env).1.errorMsg ≠ none)) := by
  constructor
  · cases hi : env.icmpResult with
    | some st => simp [pingTargetM, hok, hi]
    | none =>
        cases h80 : env.dial80Ok <;>
          simp [pingTargetM, tcpPingM, hok, hi, h80]
  · intro hi
    refine ⟨?_, ?_, ?_⟩
    · cases h80 : env.dial80Ok with
      | true => simp [pingTargetM, tcpPingM, hok, hi, h80]
      | false =>
          cases h443 : env.dial443Ok <;>
            simp [pingTargetM, tcpPingM, hok, hi, h80, h443]
    · intro hsucc
      rcases hsucc with h80 | h443
      · simp [pingTargetM, tcpPingM, hok, hi, h80]
      · cases h80 : env.dial80Ok with
        | true => simp [pingTargetM, tcpPingM, hok, hi, h80]
        | false => simp [pingTargetM, tcpPingM, hok, hi, h80, h443]
    · intro h80 h443
      simp [pingTargetM, tcpPingM, hok, hi, h80, h443]

/-- C6 witness: concrete instances of the fallback theorem, one where the
port-443 connect succeeds and one where both connects fail. -/
theorem c6_ping_fallback_witness :
    (pingTargetM "8.8.8.8" ⟨true, none, false, true, 3/100⟩).1
      = ⟨"8.8.8.8", 0, 3/100, 3/100, 3/100, none⟩
    ∧ (pingTargetM "8.8.8.8" ⟨true, none, false, false, 0⟩).1.packetLoss = 100
    ∧ (pingTargetM "8.8.8.8" ⟨true, none, false, false, 0⟩).1.errorMsg ≠ none := by
  refine ⟨?_, ?_, ?_⟩
  · exact ((c6_ping_fallback "8.8.8.8" ⟨true, none, false, true, 3/100⟩ rfl).2
      rfl).2.1 (Or.inr rfl)
  · exact (((c6_ping_fallback "8.8.8.8" ⟨true, none, false, false, 0⟩ rfl).2
      rfl).2.2 rfl rfl).1
  · exact (((c6_ping_fallback "8.8.8.8" ⟨true, none, false, false, 0⟩ rfl).2
      rfl).2.2 rfl rfl).2

/-- C7: when an IPv4 default gateway is discovered, the connectivity
Targets map holds a ping result for the gateway and for every configured
target, and the expanded target list does not duplicate a gateway that is
already configured. -/
theorem c7_gateway_inclusion (cfgTargets : List String) (gw : String)
    (pingRes : String → PingResultM) (hgw : gw ≠ "") :
    alookup (connectivityTargets cfgTargets (some gw) pingRes) gw
      = some (pingRes gw)
    ∧ (∀ t ∈ cfgTargets,
        alookup (connectivityTargets cfgTargets (some gw) pingRes) t
          = some (pingRes t))
    ∧ (gw ∈ cfgTargets → targetsToPing cfgTargets (some gw) = cfgTargets)
    ∧ (gw ∉ cfgTargets → targetsToPing cfgTargets (some gw) = gw :: cfgTargets) := by
  have htp : targetsToPing cfgTargets (some gw)
      = if gw ∈ cfgTargets then cfgTargets else gw :: cfgTargets := by
    by_cases hm : gw ∈ cfgTargets <;>
      simp [targetsToPing, hgw, hm, containsStr_eq_true_iff]
  refine ⟨?_, ?_, ?_, ?_⟩
  · unfold connectivityTargets
    rw [connectivity_fold_lookup, if_pos]
    rw [htp]
    by_cases hm : gw ∈ cfgTargets <;> simp [hm]
  · intro t ht
    unfold connectivityTargets
    rw [connectivity_fold_lookup, if_pos]
    rw [htp]
    by_cases hm : gw ∈ cfgTargets <;> simp [hm, ht]
  · intro hm
    rw [htp, if_pos hm]
  · intro hm
    rw [htp, if_neg hm]

/-- C7 witness: configured target 8.8.8.8 with discovered gateway
192.168.1.1; both keys are present and the gateway is prepended. -/
theorem c7_gateway_inclusion_witness :
    alookup (connectivityTargets ["8.8.8.8"] (some "192.168.1.1")
        (fun t => ⟨t, 0, 1, 1, 1, none⟩)) "192.168.1.1"
      = some ⟨"192.168.1.1", 0, 1, 1, 1, none⟩
    ∧ alookup (connectivityTargets ["8.8.8.8"] (some "192.168.1.1")
        (fun t => ⟨t, 0, 1, 1, 1, none⟩)) "8.8.8.8"
      = some ⟨"8.8.8.8", 0, 1, 1, 1, none⟩
    ∧ targetsToPing ["8.8.8.8"] (some "192.168.1.1")
      = ["192.168.1.1", "8.8.8.8"] := by
  refine ⟨?_, ?_, ?_⟩
  · exact (c7_gateway_inclusion ["8.8.8.8"] "192.168.1.1"
      (fun t => ⟨t, 0, 1, 1, 1, none⟩) (by decide)).1
  · exact (c7_gateway_inclusion ["8.8.8.8"] "192.168.1.1"
      (fun t => ⟨t, 0, 1, 1, 1, none⟩) (by decide)).2.1 "8.8.8.8" (by decide)
  · exact (c7_gateway_inclusion ["8.8.8.8"] "192.168.1.1"
      (fun t => ⟨t, 0, 1, 1, 1, none⟩) (by decide)).2.2.2 (by decide)

/-- C8: a tunnel whose transport is socks5 or http with an empty proxy
address fails with an error before any network dial, and every published
TunnelResult has status OK exactly when its error is nil and status Error
exactly when its error is non-nil. -/
theorem c8_tunnel_proxy_and_status :
    (∀ (cfg : TunnelConfigM) (env : TunnelEnv),
        cfg.transport = "socks5" ∨ cfg.transport = "http" → cfg.proxy = "" →
          (testTunnel cfg env).1.isSome ∧ (testTunnel cfg env).2 = [])
    ∧ (∀ (cfgs : List TunnelConfigM) (env : TunnelConfigM → TunnelEnv)
          (lat : TunnelConfigM → ℚ) (r : TunnelResultM),
        r ∈ collectTunnels cfgs env lat →
          (r.status = "OK" ↔ r.errorMsg = none)
          ∧ (r.status = "Error" ↔ r.errorMsg.isSome)) := by
  constructor
  · intro cfg env htr hp
    rcases htr with h | h <;>
      simp [testTunnel, dialTransport, h, hp]
  · intro cfgs env lat r hr
    simp only [collectTunnels, List.mem_map] at hr
    obtain ⟨cfg, _, hEq⟩ := hr
    subst hEq
    cases herr : (testTunnel cfg (env cfg)).1 <;> simp [herr]

/-- C8 witness: a socks5 tunnel with no proxy errors without dialing, and
the status of concrete results matches the error field. -/
theorem c8_tunnel_proxy_and_status_witness :
    (testTunnel ⟨"t1", "example.com:80", "tcp", "socks5", "", "", ""⟩
        ⟨none, none⟩).1.isSome
    ∧ (testTunnel ⟨"t1", "example.com:80", "tcp", "socks5", "", "", ""⟩
        ⟨none, none⟩).2 = []
    ∧ (∀ r ∈ collectTunnels [⟨"t1", "example.com:80", "tcp", "socks5", "", "", ""⟩]
          (fun _ => ⟨none, none⟩) (fun _ => 1),
        (r.status = "OK" ↔ r.errorMsg = none)
        ∧ (r.status = "Error" ↔ r.errorMsg.isSome)) := by
  refine ⟨?_, ?_, ?_⟩
  · exact (c8_tunnel_proxy_and_status.1
      ⟨"t1", "example.com:80", "tcp", "socks5", "", "", ""⟩ ⟨none, none⟩
      (Or.inl rfl) rfl).1
  · exact (c8_tunnel_proxy_and_status.1
      ⟨"t1", "example.com:80", "tcp", "socks5", "", "", ""⟩ ⟨none, none⟩
      (Or.inl rfl) rfl).2
  · intro r hr
    exact c8_tunnel_proxy_and_status.2 _ _ _ r hr

/-- C2: between two successive traffic samples of the same interface with
non-decreasing counters and positive elapsed time, the reported rate is
the counter delta over the elapsed seconds; when a counter decreased the
corresponding rate is 0 while the absolute counter carries the current
value; the first invocation yields zero rates with valid absolute
counters. -/
theorem c2_traffic_rates :
    (∀ (st0 : TrafficState) (t1 t2 : ℚ) (c1 c2 : GoCounters),
        c1.name = c2.name → t1 < t2 →
        c1.bytesRecv ≤ c2.bytesRecv → c1.bytesSent ≤ c2.bytesSent →
        alookup (trafficCollect (trafficCollect st0 t1 [c1]).2 t2 [c2]).1 c2.name
          = some { rxBytes := c2.bytesRecv, txBytes := c2.bytesSent,
                   rxRate := ((c2.bytesRecv : ℚ) - (c1.bytesRecv : ℚ)) / (t2 - t1),
                   txRate := ((c2.bytesSent : ℚ) - (c1.bytesSent : ℚ)) / (t2 - t1),
                   drop := c2.dropin + c2.dropout,
                   errors := c2.errin + c2.errout, collisions := 0 })
    ∧ (∀ (st0 : TrafficState) (t1 t2 : ℚ) (c1 c2 : GoCounters),
        c1.name = c2.name → t1 < t2 → c2.bytesRecv < c1.bytesRecv →
        ∃ t, alookup (trafficCollect (trafficCollect st0 t1 [c1]).2 t2 [c2]).1 c2.name
              = some t
          ∧ t.rxRate = 0 ∧ t.rxBytes = c2.bytesRecv)
    ∧ (∀ (st0 : TrafficState) (t1 t2 : ℚ) (c1 c2 : GoCounters),
        c1.name = c2.name → t1 < t2 → c2.bytesSent < c1.bytesSent →
        ∃ t, alookup (trafficCollect (trafficCollect st0 t1 [c1]).2 t2 [c2]).1 c2.name
              = some t
          ∧ t.txRate = 0 ∧ t.txBytes = c2.bytesSent)
    ∧ (∀ (t : ℚ) (c : GoCounters),
        alookup (trafficCollect ⟨none, []⟩ t [c]).1 c.name
          = some { rxBytes := c.bytesRecv, txBytes := c.bytesSent,
                   rxRate := 0, txRate := 0,
                   drop := c.dropin + c.dropout,
                   errors := c.errin + c.errout, collisions := 0 }) := by
  refine ⟨?_, ?_, ?_, ?_⟩
  · intro st0 t1 t2 c1 c2 hname ht hrec hsent
    have hst1 : (trafficCollect st0 t1 [c1]).2
        = ⟨some t1, aupdate st0.lastStats c1.name c1⟩ := rfl
    have hdur : (0 : ℚ) < t2 - t1 := by linarith
    have hlook : alookup (aupdate st0.lastStats c1.name c1) c2.name = some c1 := by
      rw [← hname]
      exact alookup_aupdate_self _ _ _
    rw [hst1]
    simp only [trafficCollect, trafficStep, List.foldl]
    rw [hlook]
    simp only [hdur, if_true, if_pos hrec, if_pos hsent,
      Nat.cast_sub hrec, Nat.cast_sub hsent]
    simp [alookup, aupdate]
  · intro st0 t1 t2 c1 c2 hname ht hrec
    have hst1 : (trafficCollect st0 t1 [c1]).2
        = ⟨some t1, aupdate st0.lastStats c1.name c1⟩ := rfl
    have hdur : (0 : ℚ) < t2 - t1 := by linarith
    have hlook : alookup (aupdate st0.lastStats c1.name c1) c2.name = some c1 := by
      rw [← hname]
      exact alookup_aupdate_self _ _ _
    rw [hst1]
    simp only [trafficCollect, trafficStep, List.foldl]
    rw [hlook]
    simp only [hdur, if_true, if_neg (not_le.mpr hrec)]
    by_cases hsent : c1.bytesSent ≤ c2.bytesSent <;>
      simp [hsent, alookup, aupdate]
  · intro st0 t1 t2 c1 c2 hname ht hsent
    have hst1 : (trafficCollect st0 t1 [c1]).2
        = ⟨some t1, aupdate st0.lastStats c1.name c1⟩ := rfl
    have hdur : (0 : ℚ) < t2 - t1 := by linarith
    have hlook : alookup (aupdate st0.lastStats c1.name c1) c2.name = some c1 := by
      rw [← hname]
      exact alookup_aupdate_self _ _ _
    rw [hst1]
    simp only [trafficCollect, trafficStep, List.foldl]
    rw [hlook]
    simp only [hdur, if_true, if_neg (not_le.mpr hsent)]
    by_cases hrec : c1.bytesRecv ≤ c2.bytesRecv <;>
      simp [hrec, alookup, aupdate]
  · intro t c
    simp [trafficCollect, trafficStep, alookup, aupdate]

/-- C2 witness: the spec scenario (rx 1000 at t=0, rx 3048 at t=1 gives
rate 2048), a reset sample, and a first invocation. -/
theorem c2_traffic_rates_witness :
    alookup (trafficCollect
        (trafficCollect ⟨none, []⟩ 0 [⟨"eth0", 1000, 500, 0, 0, 0, 0⟩]).2 1
        [⟨"eth0", 3048, 700, 0, 0, 0, 0⟩]).1 "eth0"
      = some { rxBytes := 3048, txBytes := 700,
               rxRate := ((3048 : ℚ) - (1000 : ℚ)) / (1 - 0),
               txRate := ((700 : ℚ) - (500 : ℚ)) / (1 - 0),
               drop := 0, errors := 0, collisions := 0 }
    ∧ (∃ t, alookup (trafficCollect
          (trafficCollect ⟨none, []⟩ 0 [⟨"eth0", 1000, 500, 0, 0, 0, 0⟩]).2 1
          [⟨"eth0", 20, 700, 0, 0, 0, 0⟩]).1 "eth0" = some t
        ∧ t.rxRate = 0 ∧ t.rxBytes = 20)
    ∧ alookup (trafficCollect ⟨none, []⟩ 5 [⟨"eth0", 1000, 500, 0, 0, 0, 0⟩]).1 "eth0"
      = some { rxBytes := 1000, txBytes := 500, rxRate := 0, txRate := 0,
               drop := 0, errors := 0, collisions := 0 } := by
  refine ⟨?_, ?_, ?_⟩
  · exact c2_traffic_rates.1 ⟨none, []⟩ 0 1 ⟨"eth0", 1000, 500, 0, 0, 0, 0⟩
      ⟨"eth0", 3048, 700, 0, 0, 0, 0⟩ rfl (by norm_num) (by norm_num) (by norm_num)
  · exact c2_traffic_rates.2.1 ⟨none, []⟩ 0 1 ⟨"eth0", 1000, 500, 0, 0, 0, 0⟩
      ⟨"eth0", 20, 700, 0, 0, 0, 0⟩ rfl (by norm_num) (by norm_num)
  · exact c2_traffic_rates.2.2.2 5 ⟨"eth0", 1000, 500, 0, 0, 0, 0⟩

/-- C3 counterexample: the claim says every invocation after the first
computes the delta-ratio rate.  Run the collector on a synthetic SNMP file
with RetransSegs 3 and OutSegs 0, then on one with RetransSegs 5 and
OutSegs 1000.  The stored prior values are (3, 0) and the delta of OutSegs
is 1000 > 0, so the claim requires rate (5-3)/(1000-0)*100 = 1/5; the code
reports the absolute-ratio seed 1/2 because its guard is on the stored
OutSegs being positive, not on being past the first invocation. -/
theorem c3_retrans_rate_counterexample :
    (kernelCollect
        (kernelCollect kernelInit
          [String.toList "Tcp: RetransSegs OutSegs", String.toList "Tcp: 3 0"]).2
        [String.toList "Tcp: RetransSegs OutSegs", String.toList "Tcp: 5 1000"]).1
      = 1/2
    ∧ (kernelCollect kernelInit
        [String.toList "Tcp: RetransSegs OutSegs", String.toList "Tcp: 3 0"]).2
      = { lastRetrans := 3, lastOutSegs := 0 }
    ∧ ((0 : ℚ) < 1000 - 0)
    ∧ ¬ ((1 : ℚ)/2 = (5 - 3) / (1000 - 0) * 100) := by
  exact ⟨by decide, by decide, by decide, by decide⟩

/-- C3 amended: the delta formula applies exactly to invocations whose
stored prior OutSegs is positive (0 when the OutSegs delta is not
positive); whenever the stored prior OutSegs is not positive — in
particular on the first invocation, which starts from zeros — the rate is
the absolute ratio if the current OutSegs is positive and 0 otherwise;
each invocation stores the observed values. -/
theorem c3_retrans_rate_amended (st : KernelState) (tcpRetrans tcpOutSegs : ℚ) :
    ((kernelRetransRate st tcpRetrans tcpOutSegs).2
        = { lastRetrans := tcpRetrans, lastOutSegs := tcpOutSegs })
    ∧ (0 < st.lastOutSegs →
        (0 < tcpOutSegs - st.lastOutSegs →
          (kernelRetransRate st tcpRetrans tcpOutSegs).1
            = (tcpRetrans - st.lastRetrans) / (tcpOutSegs - st.lastOutSegs) * 100)
        ∧ (tcpOutSegs - st.lastOutSegs ≤ 0 →
          (kernelRetransRate st tcpRetrans tcpOutSegs).1 = 0))
    ∧ (¬ 0 < st.lastOutSegs →
        (0 < tcpOutSegs →
          (kernelRetransRate st tcpRetrans tcpOutSegs).1
            = tcpRetrans / tcpOutSegs * 100)
        ∧ (¬ 0 < tcpOutSegs →
          (kernelRetransRate st tcpRetrans tcpOutSegs).1 = 0))
    ∧ kernelInit.lastOutSegs = 0 := by
  refine ⟨rfl, ?_, ?_, rfl⟩
  · intro hpos
    constructor
    · intro hdelta
      simp [kernelRetransRate, hpos, hdelta]
    · intro hdelta
      simp [kernelRetransRate, hpos, not_lt.mpr hdelta]
  · intro hpos
    constructor
    · intro hcur
      simp [kernelRetransRate, hpos, hcur]
    · intro hcur
      simp [kernelRetransRate, hpos, hcur]

/-- C3 witness: the spec scenario (seed 0.5 from 5/1000, then delta rate
1.0 from 10/1000) through the amended theorem. -/
theorem c3_retrans_rate_amended_witness :
    (kernelRetransRate ⟨0, 0⟩ 5 1000).1 = (5 : ℚ) / 1000 * 100
    ∧ (kernelRetransRate ⟨5, 1000⟩ 15 2000).1
        = ((15 : ℚ) - 5) / (2000 - 1000) * 100
    ∧ (kernelRetransRate ⟨5, 1000⟩ 15 2000).2
        = { lastRetrans := 15, lastOutSegs := 2000 } := by
  refine ⟨?_, ?_, ?_⟩
  · exact ((c3_retrans_rate_amended ⟨0, 0⟩ 5 1000).2.2.1 (by decide)).1 (by decide)
  · exact ((c3_retrans_rate_amended ⟨5, 1000⟩ 15 2000).2.1 (by decide)).1 (by decide)
  · exact (c3_retrans_rate_amended ⟨5, 1000⟩ 15 2000).1

theorem mem_zip_take {α β : Type} :
    ∀ (l1 : List α) (l2 : List β) (a : α) (b : β),
      (a, b) ∈ l1.zip l2 → a ∈ l1.take l2.length
  | [], _, _, _, h => by simp [List.zip] at h
  | _ :: _, [], _, _, h => by simp [List.zip] at h
  | x :: r1, y :: r2, a, b, h => by
      simp only [List.zip_cons_cons, List.mem_cons, Prod.mk.injEq] at h
      rcases h with ⟨ha, _⟩ | h
      · simp [ha]
      · simpa using Or.inr (mem_zip_take r1 r2 a b h)

theorem snmpFold_lookup_not_mem :
    ∀ (pairs : List (List Char × List Char)) (init : List (List Char × ℚ))
      (k : List Char), (∀ w, (k, w) ∉ pairs) →
      alookup (snmpFold pairs init) k = alookup init k := by
  intro pairs
  induction pairs with
  | nil => intro init k _; rfl
  | cons p rest ih =>
      intro init k hk
      obtain ⟨k1, v1⟩ := p
      have hne : k1 ≠ k := by
        intro he
        exact hk v1 (by simp [he])
      have hrest : ∀ w, (k, w) ∉ rest := by
        intro w hw
        exact hk w (by simp [hw])
      simp only [snmpFold, List.foldl]
      cases hp : parseDecimal v1 with
      | none => exact (ih _ k hrest).trans rfl
      | some q =>
          refine (ih _ k hrest).trans ?_
          exact alookup_aupdate_ne _ _ _ _ hne

theorem snmpFold_lookup_isSome :
    ∀ (pairs : List (List Char × List Char)) (init : List (List Char × ℚ))
      (k : List Char), (alookup (snmpFold pairs init) k).isSome →
      (∃ w, (k, w) ∈ pairs) ∨ (alookup init k).isSome := by
  intro pairs
  induction pairs with
  | nil => intro init k h; exact Or.inr h
  | cons p rest ih =>
      intro init k h
      obtain ⟨k1, v1⟩ := p
      simp only [snmpFold, List.foldl] at h
      by_cases hke : k1 = k
      · exact Or.inl ⟨v1, by simp [hke]⟩
      · cases hp : parseDecimal v1 with
        | none =>
            rw [hp] at h
            rcases ih init k h with ⟨w, hw⟩ | hinit
            · exact Or.inl ⟨w, by simp [hw]⟩
            · exact Or.inr hinit
        | some q =>
            rw [hp] at h
            rcases ih _ k h with ⟨w, hw⟩ | hinit
            · exact Or.inl ⟨w, by simp [hw]⟩
            · rw [alookup_aupdate_ne _ _ _ _ hke] at hinit
              exact Or.inr hinit

theorem snmpFold_zip_lookup :
    ∀ (ks vs : List (List Char)) (init : List (List Char × ℚ))
      (k val : List Char) (q : ℚ),
      ks.Nodup → (k, val) ∈ ks.zip vs → parseDecimal val = some q →
      alookup (snmpFold (ks.zip vs) init) k = some q := by
  intro ks
  induction ks with
  | nil => intro vs init k val q _ hmem; simp [List.zip] at hmem
  | cons k0 kt ih =>
      intro vs init k val q hnd hmem hq
      cases vs with
      | nil => simp [List.zip] at hmem
      | cons v0 vt =>
          simp only [List.zip_cons_cons, List.mem_cons, Prod.mk.injEq] at hmem
          rcases hmem with ⟨hk, hv⟩ | hmem
          · subst hk
            subst hv
            have hkt : k ∉ kt := (List.nodup_cons.mp hnd).1
            have hnone : ∀ w, (k, w) ∉ kt.zip vt := by
              intro w hw
              exact hkt (List.of_mem_zip hw).1
            have hrec := snmpFold_lookup_not_mem (kt.zip vt) (aupdate init k q) k hnone
            have hfin : alookup (snmpFold (kt.zip vt) (aupdate init k q)) k = some q := by
              rw [hrec]
              exact alookup_aupdate_self _ _ _
            simp only [snmpFold, List.foldl, hq]
            simpa only [snmpFold, List.foldl] using hfin
          · have hk0 : k0 ≠ k := by
              intro he
              subst he
              exact (List.nodup_cons.mp hnd).1 (List.of_mem_zip hmem).1
            have hnd2 : kt.Nodup := (List.nodup_cons.mp hnd).2
            simp only [snmpFold, List.foldl]
            cases hp : parseDecimal v0 with
            | none => exact ih vt init k val q hnd2 hmem hq
            | some q0 => exact ih vt _ k val q hnd2 hmem hq

/-- C9: parsing a protocol section whose values line has fewer fields
than its header line maps only the header keys that have a corresponding
value, leaves the extra headers unmapped, and (being a total function)
never indexes out of bounds. -/
theorem c9_snmp_short_values (h v p0 : List Char) (ptail : List (List Char))
    (hp : goFields h = p0 :: ptail)
    (hlen2 : 2 ≤ (goFields h).length)
    (hshort : (goFields v).length < (goFields h).length)
    (hnd : ((goFields h).drop 1).Nodup) :
    ∃ inner,
      alookup (parseNetSnmp [h, v]) (trimColonSuffix p0) = some inner
      ∧ (∀ k, (alookup inner k).isSome →
          k ∈ ((goFields h).drop 1).take ((goFields v).drop 1).length)
      ∧ (∀ k, k ∈ ((goFields h).drop 1).drop ((goFields v).drop 1).length →
          alookup inner k = none)
      ∧ (∀ k val q, (k, val) ∈ ((goFields h).drop 1).zip ((goFields v).drop 1) →
          parseDecimal val = some q → alookup inner k = some q) := by
  have hlt : ¬ ((goFields h).length < 2) := Nat.not_lt.mpr hlen2
  refine ⟨snmpFold (((goFields h).drop 1).zip ((goFields v).drop 1)) [], ?_, ?_, ?_, ?_⟩
  · show alookup (snmpLoopA [h, v] none []) (trimColonSuffix p0) = _
    simp [snmpLoopA, hlt, hp, alookup, aupdate]
    have hlen : ¬ (ptail.length + 1 < 2) := by
      rw [hp] at hlen2
      simp only [List.length_cons] at hlen2
      omega
    rw [if_neg hlen]
    simp [alookup]
  · intro k hk
    rcases snmpFold_lookup_isSome _ [] k hk with ⟨w, hw⟩ | habs
    · exact mem_zip_take _ _ _ _ hw
    · simp [alookup] at habs
  · intro k hk
    rw [snmpFold_lookup_not_mem]
    · rfl
    · intro w hw
      have htake := mem_zip_take _ _ _ _ hw
      exact (List.disjoint_take_drop hnd le_rfl) htake hk
  · intro k val q hmem hq
    exact snmpFold_zip_lookup _ _ [] k val q hnd hmem hq

/-- C9 witness: header `Tcp: A B C` with values line `Tcp: 1 2`; A and B
are mapped to 1 and 2, the extra header C is unmapped. -/
theorem c9_snmp_short_values_witness :
    ∃ inner,
      alookup (parseNetSnmp [String.toList "Tcp: A B C", String.toList "Tcp: 1 2"])
          (trimColonSuffix (String.toList "Tcp:")) = some inner
      ∧ (∀ k, (alookup inner k).isSome →
          k ∈ ((goFields (String.toList "Tcp: A B C")).drop 1).take
              ((goFields (String.toList "Tcp: 1 2")).drop 1).length)
      ∧ (∀ k, k ∈ ((goFields (String.toList "Tcp: A B C")).drop 1).drop
              ((goFields (String.toList "Tcp: 1 2")).drop 1).length →
          alookup inner k = none)
      ∧ (∀ k val q,
          (k, val) ∈ ((goFields (String.toList "Tcp: A B C")).drop 1).zip
              ((goFields (String.toList "Tcp: 1 2")).drop 1) →
          parseDecimal val = some q → alookup inner k = some q) :=
  c9_snmp_short_values (String.toList "Tcp: A B C") (String.toList "Tcp: 1 2")
    (String.toList "Tcp:")
    [String.toList "A", String.toList "B", String.toList "C"]
    (by decide) (by decide) (by decide) (by decide)

theorem lastChar_goReverseAddr (domain : List Char) (ip : List Nat)
    (hip : goParseIP domain = some ip) :
    goReverseAddr domain = some (reverseOfIP ip) := by
  unfold goReverseAddr
  rw [hip]
  rfl

/-- C5: whenever the looked-up domain parses as an IP address, the
dispatched query has type PTR (number 12) regardless of the user-selected
record type, and its name is the reverse-address rendering of the parsed
address (in-addr.arpa octet form when the address has a 4-byte form,
ip6.arpa nibble form otherwise), already fully qualified. -/
theorem c5_auto_ptr_reverse (domain : List Char) (recordType : String)
    (server : DNSServerM) (ip : List Nat) (hip : goParseIP domain = some ip) :
    dnsLookup domain recordType server
      = .dispatch { qname := reverseOfIP ip, qtype := 12 } (branchOf server.proto) := by
  unfold dnsLookup
  have hcond : recordType = "PTR" ∨ (goParseIP domain).isSome :=
    Or.inr (by simp [hip])
  rw [if_pos hcond]
  rw [lastChar_goReverseAddr domain ip hip]
  simp only []
  rw [lastChar_reverseOfIP]
  simp [qtypeOf]

/-- C5 witness: the domain 8.8.8.8 with user-selected type A dispatches a
PTR query for 8.8.8.8.in-addr.arpa. -/
theorem c5_auto_ptr_reverse_witness :
    goParseIP (String.toList "8.8.8.8")
      = some [0, 0, 0, 0, 0, 0, 0, 0, 0, 0, 255, 255, 8, 8, 8, 8]
    ∧ reverseOfIP [0, 0, 0, 0, 0, 0, 0, 0, 0, 0, 255, 255, 8, 8, 8, 8]
      = String.toList "8.8.8.8.in-addr.arpa."
    ∧ dnsLookup (String.toList "8.8.8.8") "A" ⟨"Google", "8.8.8.8:53", "UDP"⟩
      = .dispatch
          { qname := reverseOfIP [0, 0, 0, 0, 0, 0, 0, 0, 0, 0, 255, 255, 8, 8, 8, 8],
            qtype := 12 }
          (branchOf "UDP") :=
  ⟨by decide, by decide,
    c5_auto_ptr_reverse (String.toList "8.8.8.8") "A" ⟨"Google", "8.8.8.8:53", "UDP"⟩
      [0, 0, 0, 0, 0, 0, 0, 0, 0, 0, 255, 255, 8, 8, 8, 8] (by decide)⟩

/-- C10: the DNS timings error field equals the error of the local
system-resolver lookup (none when it succeeded); a failure of the forced
public-resolver lookup never sets it, while the public elapsed time is
still recorded.  The statement quantifies over every outcome of the
public lookup, including failures. -/
theorem c10_dns_timings_error_local_only (env : DnsCheckEnv) :
    (checkDNSM env).errorMsg = env.localErr
    ∧ (checkDNSM env).publicResolverTime = env.publicElapsed
    ∧ (checkDNSM env).localResolverTime = env.localElapsed := by
  unfold checkDNSM
  cases h : env.localErr <;> simp [h]

end Lnd
